import Mathlib

/-!
Shallow embedding of the multi-scrobbler coordination core of the
web-scrobbler browser extension: the ScrobbleManager module, the parts of
the Extension controller that govern the auth notification counter, and
the duration parser exercised by the test suite.

Stateful JavaScript (the module-level mutable arrays boundScrobblers and
registeredScrobblers, and the stored notification counter) is embedded by
explicit state passing: every manager operation takes the current bound
list (and, where the source reads it, the registered list) and returns the
updated one.  Promise semantics are embedded as follows: a promise that
resolves with a value of type A or rejects is an Except value; Promise.all
over a list of settled outcomes resolves with the list of values when all
resolve and otherwise rejects with the first rejection in list order (a
linearization of the rejection-time order, which the verified properties
do not depend on).
-/

namespace WebScrobbler

/-- Modelled from the spec: the normalized song metadata handed to the
Manager by the controller.  Its contents are threaded through unchanged;
the Manager never inspects them. -/
structure SongInfo where
  artist : String
  track : String
  album : Option String
  duration : Option Int
  deriving DecidableEq, Repr

/-- Love status flag, as referenced by the source (LoveStatus.Loved). -/
inductive LoveStatus where
  | Loved
  | Unloved
  deriving DecidableEq, Repr

/-- Modelled from the spec: ApiCallResult is a discriminated outcome with
a closed set of kinds: success, auth error, other error (the source file
api-call-result.ts is not under src/).  The kind constants
ApiCallResult.ERROR_AUTH and ApiCallResult.ERROR_OTHER are values of this
type. -/
inductive ApiCallResultType where
  | resultOk
  | errorAuth
  | errorOther
  deriving DecidableEq, Repr

/-- Modelled from the spec: a classified per-scrobbler outcome, optionally
carrying the originating scrobbler identity. -/
structure ApiCallResult where
  resultType : ApiCallResultType
  scrobblerId : Option String
  deriving DecidableEq, Repr

/-- The kind test used by processErrorResult: result.is(KIND). -/
def ApiCallResult.is (result : ApiCallResult) (kind : ApiCallResultType) : Bool :=
  result.resultType == kind

/-- A JavaScript-level failure surfaced as a promise rejection, used to
model the value with which an aggregate Promise.all rejects.
invalidResult models the thrown new Error with message Invalid result;
typeError models the TypeError raised when a method is invoked on null or
on a non-ApiCallResult value; rejectedWith models a raw scrobbler
rejection that escaped every handler. -/
inductive JsError where
  | invalidResult
  | typeError
  | rejectedWith (result : ApiCallResult)
  deriving DecidableEq, Repr

/-- Modelled from the spec: per-scrobbler supplementary song metadata
returned by getSongInfo; opaque to the Manager. -/
structure ScrobblerSongInfo where
  songInfo : SongInfo
  isLovedStatus : Option Bool
  deriving DecidableEq, Repr

/-- Modelled from the spec: the BaseScrobbler capability contract (the
class itself is not under src/).  The field ref models JavaScript object
identity (strict equality of references); id is the value of getId().
The remaining fields give the externally determined outcome of each
asynchronous capability call: an Except value is the settlement of the
returned promise (ok = resolved, error = rejected).  The methods are
declared async in the backend classes, so a failure is always a promise
rejection, never a synchronous throw. -/
structure Scrobbler where
  ref : Nat
  id : String
  label : String
  canLoadSongInfo : Bool
  canLoveSong : Bool
  isReadyForGrantAccess : Bool
  getSession : Except ApiCallResult Unit
  sendNowPlaying : SongInfo → Except ApiCallResult ApiCallResult
  scrobble : SongInfo → Except ApiCallResult ApiCallResult
  toggleLove : SongInfo → LoveStatus → Except ApiCallResult ApiCallResult
  getSongInfo : SongInfo → Except Unit ScrobblerSongInfo

/-- Check if scrobbler is in given array of scrobblers; the comparison is
by getId(), as in the source. -/
def isScrobblerInArray (scrobbler : Scrobbler) (array : List Scrobbler) : Bool :=
  array.any (fun s => s.id == scrobbler.id)

/-- Index of the first element with the same object reference, or none.
Helper for indexOfScrobbler. -/
def refIndexOf (scrobbler : Scrobbler) : List Scrobbler → Option Nat
  | [] => none
  | s :: rest =>
      if s.ref == scrobbler.ref then some 0
      else (refIndexOf scrobbler rest).map (· + 1)

/-- JavaScript Array.prototype.indexOf: strict equality, which for objects
is reference identity; yields -1 when the reference is absent. -/
def indexOfScrobbler (array : List Scrobbler) (scrobbler : Scrobbler) : Int :=
  match refIndexOf scrobbler array with
  | some i => (i : Int)
  | none => -1

/-- JavaScript Array.prototype.splice(start, 1): a negative start counts
from the end of the array (clamped at 0), a start beyond the length is
clamped to the length; exactly one element at the actual start position is
removed when it exists. -/
def spliceOne (array : List Scrobbler) (start : Int) : List Scrobbler :=
  let actualStart : Nat :=
    if start < 0 then ((array.length : Int) + start).toNat
    else min start.toNat array.length
  array.take actualStart ++ array.drop (actualStart + 1)

/-- Promise.all over already-settled outcomes: resolves with all values,
or rejects with the first rejection in list order. -/
def promiseAll {α : Type} : List (Except JsError α) → Except JsError (List α)
  | [] => Except.ok []
  | Except.error e :: _ => Except.error e
  | Except.ok v :: rest =>
      match promiseAll rest with
      | Except.ok vs => Except.ok (v :: vs)
      | Except.error e => Except.error e

namespace ScrobbleManager

/-- Bind given scrobbler: push it onto boundScrobblers unless a scrobbler
with the same id is already present. -/
def bindScrobbler (scrobbler : Scrobbler) (bound : List Scrobbler) : List Scrobbler :=
  if !(isScrobblerInArray scrobbler bound) then bound ++ [scrobbler]
  else bound

/-- Unbind given scrobbler.  The membership test is keyed by id
(isScrobblerInArray), but the removal position is computed by
Array.prototype.indexOf, i.e. by object reference; when the reference is
absent indexOf yields -1 and splice(-1, 1) removes the LAST element.  A
non-member only logs an error; nothing is thrown. -/
def unbindScrobbler (scrobbler : Scrobbler) (bound : List Scrobbler) : List Scrobbler :=
  if isScrobblerInArray scrobbler bound then
    spliceOne bound (indexOfScrobbler bound scrobbler)
  else
    bound

/-- Bind all registered scrobblers: a sequential loop that awaits
getSession() on each registered scrobbler inside try/catch, binds on
success, and only logs a warning on failure; returns boundScrobblers. -/
def bindAllScrobblers (registered : List Scrobbler) (bound : List Scrobbler) :
    List Scrobbler :=
  registered.foldl
    (fun b scrobbler =>
      match scrobbler.getSession with
      | Except.ok _ => bindScrobbler scrobbler b
      | Except.error _ => b)
    bound

/-- Process result received from scrobbler.  Returns the forwarded result
together with the updated bound list; the thrown new Error on an
unclassified result is the error component, in which case the bound list
is untouched (the throw happens before any unbind). -/
def processErrorResult (scrobbler : Scrobbler) (result : ApiCallResult)
    (bound : List Scrobbler) : Except JsError ApiCallResult × List Scrobbler :=
  let isOtherError := result.is ApiCallResultType.errorOther
  let isAuthError := result.is ApiCallResultType.errorAuth
  if !(isOtherError || isAuthError) then
    (Except.error JsError.invalidResult, bound)
  else
    let bound2 :=
      if isAuthError && !scrobbler.isReadyForGrantAccess then
        unbindScrobbler scrobbler bound
      else bound
    (Except.ok result, bound2)

/-- The body mapped over boundScrobblers by sendNowPlaying: the per-call
rejection is caught by .catch and handed to processErrorResult, whose
forwarded result (or thrown error) becomes the settlement of this slot. -/
def sendNowPlayingStep (songInfo : SongInfo)
    (acc : List (Except JsError ApiCallResult) × List Scrobbler)
    (scrobbler : Scrobbler) :
    List (Except JsError ApiCallResult) × List Scrobbler :=
  match scrobbler.sendNowPlaying songInfo with
  | Except.ok result => (acc.1 ++ [Except.ok result], acc.2)
  | Except.error result =>
      let (res, b2) := processErrorResult scrobbler result acc.2
      (acc.1 ++ [res], b2)

/-- Send now playing notification to each bound scrobbler.  The map is
taken over a snapshot of boundScrobblers; the catch handlers mutate the
live bound list, threaded here through the fold. -/
def sendNowPlaying (songInfo : SongInfo) (bound : List Scrobbler) :
    Except JsError (List ApiCallResult) × List Scrobbler :=
  let (entries, bound2) := bound.foldl (sendNowPlayingStep songInfo) ([], bound)
  (promiseAll entries, bound2)

/-- One slot of sendScrobbleRequest.  The source returns
scrobbler.scrobble(songInfo) from inside try WITHOUT awaiting it, so the
promise rejection of a scrobble call is NOT intercepted by the catch
block: it becomes the rejection of this slot directly (rejectedWith).
The catch only fires on a synchronous throw, which happens exactly when
the entry is null (a TypeError from invoking .scrobble on null); the catch
then calls processErrorResult(null, typeError), which itself raises a
TypeError when it invokes .is on the non-ApiCallResult value, so the slot
rejects with a TypeError and the bound list is never modified. -/
def sendScrobbleRequestSlot (songInfo : SongInfo) (entry : Option Scrobbler) :
    Except JsError ApiCallResult :=
  match entry with
  | none => Except.error JsError.typeError
  | some scrobbler =>
      match scrobbler.scrobble songInfo with
      | Except.ok result => Except.ok result
      | Except.error result => Except.error (JsError.rejectedWith result)

/-- Scrobble song using given scrobblers.  The parameter is declared
BaseScrobbler[] in the source, but getScrobblerById can inject null
entries, hence Option.  The bound list is returned unchanged: no slot ever
reaches a completed processErrorResult (see sendScrobbleRequestSlot). -/
def sendScrobbleRequest (scrobblers : List (Option Scrobbler))
    (songInfo : SongInfo) (bound : List Scrobbler) :
    Except JsError (List ApiCallResult) × List Scrobbler :=
  (promiseAll (scrobblers.map (sendScrobbleRequestSlot songInfo)), bound)

/-- Scrobble song to each bound scrobbler. -/
def scrobble (songInfo : SongInfo) (bound : List Scrobbler) :
    Except JsError (List ApiCallResult) × List Scrobbler :=
  sendScrobbleRequest (bound.map some) songInfo bound

/-- Get a scrobbler by a given ID: the first registered scrobbler whose
getId() matches, or null. -/
def getScrobblerById (registered : List Scrobbler) (scrobblerId : String) :
    Option Scrobbler :=
  registered.find? (fun scrobbler => scrobbler.id == scrobblerId)

/-- Scrobble song using the scrobblers named by the given IDs: each id is
mapped through getScrobblerById with no filtering and no up-front
validation, and the resulting (possibly null) entries are handed to
sendScrobbleRequest. -/
def scrobbleWithScrobblers (registered : List Scrobbler) (songInfo : SongInfo)
    (scrobblerIds : List String) (bound : List Scrobbler) :
    Except JsError (List ApiCallResult) × List Scrobbler :=
  sendScrobbleRequest (scrobblerIds.map (getScrobblerById registered)) songInfo bound

/-- The body mapped over the capable scrobblers by toggleLove: identical
error handling to sendNowPlayingStep. -/
def toggleLoveStep (songInfo : SongInfo) (loveStatus : LoveStatus)
    (acc : List (Except JsError ApiCallResult) × List Scrobbler)
    (scrobbler : Scrobbler) :
    List (Except JsError ApiCallResult) × List Scrobbler :=
  match scrobbler.toggleLove songInfo loveStatus with
  | Except.ok result => (acc.1 ++ [Except.ok result], acc.2)
  | Except.error result =>
      let (res, b2) := processErrorResult scrobbler result acc.2
      (acc.1 ++ [res], b2)

/-- Toggle song love status: dispatched over the registered scrobblers
that declare canLoveSong(), with per-slot catch via processErrorResult. -/
def toggleLove (registered : List Scrobbler) (bound : List Scrobbler)
    (songInfo : SongInfo) (loveStatus : LoveStatus) :
    Except JsError (List ApiCallResult) × List Scrobbler :=
  let scrobblers := registered.filter (fun scrobbler => scrobbler.canLoveSong)
  let folded := scrobblers.foldl (toggleLoveStep songInfo loveStatus) ([], bound)
  (promiseAll folded.1, folded.2)

/-- Retrieve song info using scrobbler APIs: dispatched over the
registered scrobblers that declare canLoadSongInfo(); every per-slot
rejection is absorbed by .catch(() => null), so each slot resolves with
either the song info or null and the aggregate never rejects. -/
def getSongInfo (registered : List Scrobbler) (songInfo : SongInfo) :
    List (Option ScrobblerSongInfo) :=
  let scrobblers := registered.filter (fun scrobbler => scrobbler.canLoadSongInfo)
  scrobblers.map (fun scrobbler => (scrobbler.getSongInfo songInfo).toOption)

end ScrobbleManager

namespace Extension

/-- How many times to show auth notification. -/
def authNotificationDisplayCount : Nat := 3

/-- Check if extension should display auth notification.  The stored
notification data may lack the counter (modelled by none); the source
reads data.authDisplayCount and coalesces a missing value to 0. -/
def isAuthNotificationAllowed (stored : Option Nat) : Bool :=
  stored.getD 0 < authNotificationDisplayCount

/-- Update internal counter of displayed auth notifications: read the
count (0 when absent), add one, write it back. -/
def updateAuthDisplayCount (stored : Option Nat) : Option Nat :=
  some (stored.getD 0 + 1)

/-- showAuthNotification: when allowed, display the notification (or fall
back to opening a tab) and then bump the counter; otherwise do nothing.
Returns the new stored counter and whether a notification was shown. -/
def showAuthNotification (stored : Option Nat) : Option Nat × Bool :=
  if isAuthNotificationAllowed stored then
    (updateAuthDisplayCount stored, true)
  else
    (stored, false)

/-- The number of notifications actually displayed across a sequence of n
showAuthNotification calls starting from the given stored counter. -/
def showAuthNotificationTimes (stored : Option Nat) : Nat → Nat
  | 0 => 0
  | n + 1 =>
      let r := showAuthNotification stored
      (if r.2 then 1 else 0) + showAuthNotificationTimes r.1 n

end Extension

namespace Util

/-- Strings are embedded as their character lists; this is
String.prototype.trim, removing whitespace from both ends. -/
def trimChars (l : List Char) : List Char :=
  ((l.dropWhile Char.isWhitespace).reverse.dropWhile Char.isWhitespace).reverse

/-- Split a character list on the colon separator. -/
def splitOnColon : List Char → List (List Char)
  | [] => [[]]
  | c :: rest =>
      match splitOnColon rest, c == ':' with
      | r, true => [] :: r
      | [], false => [[c]]
      | h :: t, false => (c :: h) :: t

/-- Parse a nonempty all-digit character list as a natural number. -/
def parseNatChars (l : List Char) : Option Nat :=
  if l ≠ [] ∧ l.all Char.isDigit then
    some (l.foldl (fun a c => a * 10 + (c.toNat - 48)) 0)
  else none

/-- Modelled from the spec: Util.stringToSeconds of the content util
module, which is not under src/ (only its test data is).  Parsing law per
the spec: trim whitespace, empty or missing (null) input yields 0, an
optional leading minus sign, then colon-separated components read as
h:mm:ss, mm:ss or ss.  The input string is embedded as its character
list. -/
def stringToSeconds (str : Option (List Char)) : Int :=
  match str with
  | none => 0
  | some s =>
      let t := trimChars s
      match t with
      | [] => 0
      | _ =>
          let neg := t.headD ' ' == '-'
          let body := if neg then t.tail else t
          let parts := (splitOnColon body).map (fun p => (parseNatChars p).getD 0)
          let total : Nat := parts.foldl (fun acc n => acc * 60 + n) 0
          if neg then -(total : Int) else (total : Int)

end Util

/-! Concrete scrobbler instances and song data used to evaluate the
embedded operations on explicit inputs. -/

/-- A success result attributed to the given scrobbler id. -/
def okResult (id : String) : ApiCallResult :=
  { resultType := ApiCallResultType.resultOk, scrobblerId := some id }

/-- A classified OtherError result attributed to the given scrobbler id. -/
def otherError (id : String) : ApiCallResult :=
  { resultType := ApiCallResultType.errorOther, scrobblerId := some id }

/-- A classified AuthError result attributed to the given scrobbler id. -/
def authError (id : String) : ApiCallResult :=
  { resultType := ApiCallResultType.errorAuth, scrobblerId := some id }

/-- A sample song. -/
def sampleSong : SongInfo :=
  { artist := "Artist", track := "Track", album := none, duration := some 215 }

/-- A scrobbler instance whose calls all succeed. -/
def mkScrobbler (ref : Nat) (id : String) : Scrobbler :=
  { ref := ref
    id := id
    label := id
    canLoadSongInfo := true
    canLoveSong := true
    isReadyForGrantAccess := false
    getSession := Except.ok ()
    sendNowPlaying := fun _ => Except.ok (okResult id)
    scrobble := fun _ => Except.ok (okResult id)
    toggleLove := fun _ _ => Except.ok (okResult id)
    getSongInfo := fun songInfo =>
      Except.ok { songInfo := songInfo, isLovedStatus := none } }

/-- A lastfm instance, reference 0. -/
def lastfmA : Scrobbler := mkScrobbler 0 "lastfm"

/-- A second, distinct object carrying the same id lastfm, reference 1. -/
def lastfmB : Scrobbler := mkScrobbler 1 "lastfm"

/-- A librefm instance, reference 2. -/
def librefmC : Scrobbler := mkScrobbler 2 "librefm"

/-- A lastfm instance whose scrobble and sendNowPlaying calls reject with
a classified OtherError. -/
def failingOther : Scrobbler :=
  { mkScrobbler 3 "lastfm" with
    sendNowPlaying := fun _ => Except.error (otherError "lastfm")
    scrobble := fun _ => Except.error (otherError "lastfm") }

/-- A scrobbler that is not ready for grant access, used to exercise the
unbind-on-auth-error path. -/
def notReadyScrobbler : Scrobbler := mkScrobbler 4 "listenbrainz"

/-- A scrobbler that is ready for grant access. -/
def readyScrobbler : Scrobbler :=
  { mkScrobbler 5 "librefm" with isReadyForGrantAccess := true }

/-- A scrobbler whose getSession call rejects. -/
def failingSession : Scrobbler :=
  { mkScrobbler 6 "librefm" with
    getSession := Except.error (authError "librefm") }

/-! Helper lemmas about membership, bind and unbind. -/

@[simp]
theorem isScrobblerInArray_nil (s : Scrobbler) : isScrobblerInArray s [] = false := rfl

theorem isScrobblerInArray_cons (s a : Scrobbler) (l : List Scrobbler) :
    isScrobblerInArray s (a :: l) = ((a.id == s.id) || isScrobblerInArray s l) := by
  simp [isScrobblerInArray]

theorem isScrobblerInArray_append (s : Scrobbler) (l1 l2 : List Scrobbler) :
    isScrobblerInArray s (l1 ++ l2) = (isScrobblerInArray s l1 || isScrobblerInArray s l2) := by
  simp [isScrobblerInArray]

theorem isScrobblerInArray_eq_false_iff (s : Scrobbler) (l : List Scrobbler) :
    isScrobblerInArray s l = false ↔ ∀ t ∈ l, (t.id == s.id) = false := by
  simp [isScrobblerInArray]

theorem isScrobblerInArray_eq_true_iff (s : Scrobbler) (l : List Scrobbler) :
    isScrobblerInArray s l = true ↔ ∃ t ∈ l, (t.id == s.id) = true := by
  simp [isScrobblerInArray]

namespace ScrobbleManager

theorem bindScrobbler_of_mem (s : Scrobbler) (l : List Scrobbler)
    (h : isScrobblerInArray s l = true) : bindScrobbler s l = l := by
  simp [bindScrobbler, h]

theorem bindScrobbler_of_not_mem (s : Scrobbler) (l : List Scrobbler)
    (h : isScrobblerInArray s l = false) : bindScrobbler s l = l ++ [s] := by
  simp [bindScrobbler, h]

theorem mem_bindScrobbler_self (s : Scrobbler) (l : List Scrobbler) :
    isScrobblerInArray s (bindScrobbler s l) = true := by
  by_cases h : isScrobblerInArray s l = true
  · rw [bindScrobbler_of_mem s l h]; exact h
  · rw [Bool.not_eq_true] at h
    rw [bindScrobbler_of_not_mem s l h, isScrobblerInArray_append]
    simp [isScrobblerInArray]

theorem mem_bindScrobbler_mono (s t : Scrobbler) (l : List Scrobbler)
    (h : isScrobblerInArray t l = true) :
    isScrobblerInArray t (bindScrobbler s l) = true := by
  by_cases hm : isScrobblerInArray s l = true
  · rwa [bindScrobbler_of_mem s l hm]
  · rw [Bool.not_eq_true] at hm
    rw [bindScrobbler_of_not_mem s l hm, isScrobblerInArray_append, h, Bool.true_or]

theorem bindScrobbler_cons_ne (s a : Scrobbler) (l : List Scrobbler)
    (h : (a.id == s.id) = false) :
    bindScrobbler s (a :: l) = a :: bindScrobbler s l := by
  by_cases hm : isScrobblerInArray s l = true
  · rw [bindScrobbler_of_mem s l hm, bindScrobbler_of_mem]
    rw [isScrobblerInArray_cons, h, Bool.false_or]; exact hm
  · rw [Bool.not_eq_true] at hm
    rw [bindScrobbler_of_not_mem s l hm, bindScrobbler_of_not_mem]
    · rfl
    · rw [isScrobblerInArray_cons, h, Bool.false_or]; exact hm

theorem bindScrobbler_idem (s : Scrobbler) (l : List Scrobbler) :
    bindScrobbler s (bindScrobbler s l) = bindScrobbler s l :=
  bindScrobbler_of_mem s _ (mem_bindScrobbler_self s l)

end ScrobbleManager

theorem refIndexOf_eq_none_of (s : Scrobbler) (l : List Scrobbler)
    (h : ∀ u ∈ l, (u.ref == s.ref) = false) : refIndexOf s l = none := by
  induction l with
  | nil => rfl
  | cons a l ih =>
      simp only [refIndexOf, h a (List.mem_cons_self a l)]
      simp [ih fun u hu => h u (List.mem_cons_of_mem a hu)]

theorem refIndexOf_append_self (s : Scrobbler) (l : List Scrobbler)
    (h : ∀ u ∈ l, (u.ref == s.ref) = false) :
    refIndexOf s (l ++ [s]) = some l.length := by
  induction l with
  | nil => simp [refIndexOf]
  | cons a l ih =>
      simp only [List.cons_append, refIndexOf, h a (List.mem_cons_self a l)]
      simp [ih fun u hu => h u (List.mem_cons_of_mem a hu)]

theorem refIndexOf_isSome (s : Scrobbler) (l : List Scrobbler)
    (h : ∃ u ∈ l, (u.ref == s.ref) = true) : ∃ j, refIndexOf s l = some j := by
  induction l with
  | nil => simp at h
  | cons a l ih =>
      by_cases ha : (a.ref == s.ref) = true
      · exact ⟨0, by simp [refIndexOf, ha]⟩
      · rw [Bool.not_eq_true] at ha
        obtain ⟨u, hu, hru⟩ := h
        rcases List.mem_cons.mp hu with rfl | hul
        · rw [hru] at ha; cases ha
        · obtain ⟨j, hj⟩ := ih ⟨u, hul, hru⟩
          exact ⟨j + 1, by simp [refIndexOf, ha, hj]⟩

theorem spliceOne_natCast (l : List Scrobbler) (j : Nat) :
    spliceOne l (j : Int) = l.take (min j l.length) ++ l.drop (min j l.length + 1) := by
  have h : ¬ ((j : Int) < 0) := by omega
  simp [spliceOne, h]

theorem spliceOne_zero (a : Scrobbler) (l : List Scrobbler) :
    spliceOne (a :: l) ((0 : Nat) : Int) = l := by
  rw [spliceOne_natCast]
  simp

theorem spliceOne_cons_succ (a : Scrobbler) (l : List Scrobbler) (j : Nat) :
    spliceOne (a :: l) ((j + 1 : Nat) : Int) = a :: spliceOne l (j : Int) := by
  rw [spliceOne_natCast, spliceOne_natCast]
  simp [List.length_cons, Nat.succ_min_succ]

theorem spliceOne_append_last (s : Scrobbler) (l : List Scrobbler) :
    spliceOne (l ++ [s]) ((l.length : Nat) : Int) = l := by
  rw [spliceOne_natCast]
  have hmin : min l.length (l ++ [s]).length = l.length := by
    simp [List.length_append]
  rw [hmin, List.take_left]
  have : (l ++ [s]).length ≤ l.length + 1 := by simp [List.length_append]
  rw [List.drop_eq_nil_of_le this, List.append_nil]

namespace ScrobbleManager

theorem unbindScrobbler_of_not_mem (s : Scrobbler) (l : List Scrobbler)
    (h : isScrobblerInArray s l = false) : unbindScrobbler s l = l := by
  simp [unbindScrobbler, h]

theorem unbindScrobbler_cons_head (s a : Scrobbler) (l : List Scrobbler)
    (hid : (a.id == s.id) = true) (href : (a.ref == s.ref) = true) :
    unbindScrobbler s (a :: l) = l := by
  have hm : isScrobblerInArray s (a :: l) = true := by
    rw [isScrobblerInArray_cons, hid, Bool.true_or]
  rw [unbindScrobbler, hm, if_pos rfl]
  simp only [indexOfScrobbler, refIndexOf, href, if_pos rfl]
  exact spliceOne_zero a l

theorem unbindScrobbler_cons_ne (s a : Scrobbler) (l : List Scrobbler)
    (hid : (a.id == s.id) = false) (href : (a.ref == s.ref) = false)
    (hm : isScrobblerInArray s l = true)
    (hr : ∃ u ∈ l, (u.ref == s.ref) = true) :
    unbindScrobbler s (a :: l) = a :: unbindScrobbler s l := by
  obtain ⟨j, hj⟩ := refIndexOf_isSome s l hr
  have hm2 : isScrobblerInArray s (a :: l) = true := by
    rw [isScrobblerInArray_cons, hid, Bool.false_or]; exact hm
  rw [unbindScrobbler, hm2, if_pos rfl, unbindScrobbler, hm, if_pos rfl]
  simp only [indexOfScrobbler, refIndexOf, href, hj]
  simp only [Bool.false_eq_true, if_false, Option.map_some']
  exact spliceOne_cons_succ a l j

/-- Under the id-reference coherence hypothesis and uniqueness of the id
in the bound list, unbinding really removes the id from the bound set. -/
theorem not_mem_unbindScrobbler (s : Scrobbler) :
    ∀ l : List Scrobbler,
      (∀ t ∈ l, (t.id = s.id ↔ t.ref = s.ref)) →
      (l.filter (fun t => t.id == s.id)).length ≤ 1 →
      isScrobblerInArray s (unbindScrobbler s l) = false := by
  intro l
  induction l with
  | nil => intro _ _; simp [unbindScrobbler]
  | cons a l ih =>
      intro hA hu
      by_cases hid : (a.id == s.id) = true
      · have hid2 : a.id = s.id := by simpa using hid
        have href : (a.ref == s.ref) = true := by
          have := (hA a (List.mem_cons_self a l)).mp hid2
          simpa using this
        rw [unbindScrobbler_cons_head s a l hid href]
        simp only [List.filter_cons, hid, if_true] at hu
        have hnil : l.filter (fun t => t.id == s.id) = [] := by
          have : (l.filter (fun t => t.id == s.id)).length = 0 := by
            simp only [List.length_cons] at hu; omega
          exact List.length_eq_zero.mp this
        rw [isScrobblerInArray_eq_false_iff]
        intro t ht
        have := List.filter_eq_nil_iff.mp hnil t ht
        simpa using this
      · rw [Bool.not_eq_true] at hid
        by_cases hm : isScrobblerInArray s l = true
        · have href : (a.ref == s.ref) = false := by
            rw [Bool.eq_false_iff]
            intro hc
            have hc2 : a.ref = s.ref := by simpa using hc
            have := (hA a (List.mem_cons_self a l)).mpr hc2
            rw [show (a.id == s.id) = true by simpa using this] at hid
            cases hid
          have hr : ∃ u ∈ l, (u.ref == s.ref) = true := by
            obtain ⟨u, hu2, hus⟩ := (isScrobblerInArray_eq_true_iff s l).mp hm
            refine ⟨u, hu2, ?_⟩
            have : u.ref = s.ref :=
              (hA u (List.mem_cons_of_mem a hu2)).mp (by simpa using hus)
            simpa using this
          rw [unbindScrobbler_cons_ne s a l hid href hm hr]
          rw [isScrobblerInArray_cons, hid, Bool.false_or]
          apply ih
          · intro t ht; exact hA t (List.mem_cons_of_mem a ht)
          · simp only [List.filter_cons, hid, Bool.false_eq_true, if_false] at hu
            exact hu
        · rw [Bool.not_eq_true] at hm
          have hall : isScrobblerInArray s (a :: l) = false := by
            rw [isScrobblerInArray_cons, hid, hm]; rfl
          rw [unbindScrobbler_of_not_mem s (a :: l) hall]
          exact hall

/-- The bind-unbind-rebind round trip preserves id membership when the
target id already occurs in the list, assuming id-reference coherence. -/
theorem roundTrip_mem (s : Scrobbler) :
    ∀ l : List Scrobbler,
      (∀ t ∈ l, (t.id = s.id ↔ t.ref = s.ref)) →
      isScrobblerInArray s l = true →
      ∀ t, isScrobblerInArray t (bindScrobbler s (unbindScrobbler s l))
            = isScrobblerInArray t l := by
  intro l
  induction l with
  | nil => intro _ h; cases h
  | cons a l ih =>
      intro hA hmem t
      by_cases hid : (a.id == s.id) = true
      · have hid2 : a.id = s.id := by simpa using hid
        have href : (a.ref == s.ref) = true := by
          simpa using (hA a (List.mem_cons_self a l)).mp hid2
        rw [unbindScrobbler_cons_head s a l hid href]
        by_cases hml : isScrobblerInArray s l = true
        · rw [bindScrobbler_of_mem s l hml, isScrobblerInArray_cons]
          by_cases hat : (a.id == t.id) = true
          · have hat2 : a.id = t.id := by simpa using hat
            obtain ⟨u, hu, hus⟩ := (isScrobblerInArray_eq_true_iff s l).mp hml
            have hmt : isScrobblerInArray t l = true := by
              rw [isScrobblerInArray_eq_true_iff]
              refine ⟨u, hu, ?_⟩
              have hus2 : u.id = s.id := by simpa using hus
              simp [hus2.trans (hid2.symm.trans hat2)]
            rw [hmt, hat, Bool.true_or]
          · rw [Bool.not_eq_true] at hat
            rw [hat, Bool.false_or]
        · rw [Bool.not_eq_true] at hml
          rw [bindScrobbler_of_not_mem s l hml]
          simp only [isScrobblerInArray, List.any_append, List.any_cons,
            List.any_nil, hid2, Bool.or_false]
          exact Bool.or_comm _ _
      · rw [Bool.not_eq_true] at hid
        have hml : isScrobblerInArray s l = true := by
          rw [isScrobblerInArray_cons, hid, Bool.false_or] at hmem; exact hmem
        have href : (a.ref == s.ref) = false := by
          rw [Bool.eq_false_iff]
          intro hc
          have hc2 : a.ref = s.ref := by simpa using hc
          have := (hA a (List.mem_cons_self a l)).mpr hc2
          rw [show (a.id == s.id) = true by simpa using this] at hid
          cases hid
        have hr : ∃ u ∈ l, (u.ref == s.ref) = true := by
          obtain ⟨u, hu2, hus⟩ := (isScrobblerInArray_eq_true_iff s l).mp hml
          refine ⟨u, hu2, ?_⟩
          have : u.ref = s.ref :=
            (hA u (List.mem_cons_of_mem a hu2)).mp (by simpa using hus)
          simpa using this
        rw [unbindScrobbler_cons_ne s a l hid href hml hr,
          bindScrobbler_cons_ne s a _ hid, isScrobblerInArray_cons,
          isScrobblerInArray_cons,
          ih (fun u hu => hA u (List.mem_cons_of_mem a hu)) hml t]

/-- The bind-unbind-rebind round trip preserves id membership, assuming
id-reference coherence of the starting list. -/
theorem roundTrip_bindScrobbler (s : Scrobbler) (l : List Scrobbler)
    (hA : ∀ t ∈ l, (t.id = s.id ↔ t.ref = s.ref)) :
    ∀ t, isScrobblerInArray t
            (bindScrobbler s (unbindScrobbler s (bindScrobbler s l)))
          = isScrobblerInArray t (bindScrobbler s l) := by
  by_cases hm : isScrobblerInArray s l = true
  · rw [bindScrobbler_of_mem s l hm]
    exact roundTrip_mem s l hA hm
  · rw [Bool.not_eq_true] at hm
    rw [bindScrobbler_of_not_mem s l hm]
    have hnone : ∀ u ∈ l, (u.ref == s.ref) = false := by
      intro u hu
      rw [Bool.eq_false_iff]
      intro hc
      have hc2 : u.ref = s.ref := by simpa using hc
      have hid : u.id = s.id := (hA u hu).mpr hc2
      have := (isScrobblerInArray_eq_false_iff s l).mp hm u hu
      rw [show (u.id == s.id) = true by simpa using hid] at this
      cases this
    have hmem : isScrobblerInArray s (l ++ [s]) = true := by
      rw [isScrobblerInArray_append]
      simp [isScrobblerInArray]
    have hunbind : unbindScrobbler s (l ++ [s]) = l := by
      rw [unbindScrobbler, hmem, if_pos rfl]
      simp only [indexOfScrobbler, refIndexOf_append_self s l hnone]
      exact spliceOne_append_last s l
    rw [hunbind, bindScrobbler_of_not_mem s l hm]
    intro t; rfl

theorem bindAllScrobblers_nil (bound : List Scrobbler) :
    bindAllScrobblers [] bound = bound := rfl

theorem bindAllScrobblers_cons (a : Scrobbler) (l : List Scrobbler)
    (bound : List Scrobbler) :
    bindAllScrobblers (a :: l) bound
      = bindAllScrobblers l
          (match a.getSession with
            | Except.ok _ => bindScrobbler a bound
            | Except.error _ => bound) := rfl

/-- Skipping the scrobblers whose getSession rejects does not change the
outcome of bindAllScrobblers: failures contribute nothing. -/
theorem bindAllScrobblers_filter_ok (registered : List Scrobbler) :
    ∀ bound : List Scrobbler,
      bindAllScrobblers registered bound
        = bindAllScrobblers (registered.filter (fun s => s.getSession.isOk)) bound := by
  induction registered with
  | nil => intro bound; rfl
  | cons a l ih =>
      intro bound
      cases hs : a.getSession with
      | ok v =>
          have : a.getSession.isOk = true := by simp [hs, Except.isOk, Except.toBool]
          rw [bindAllScrobblers_cons]
          simp only [List.filter_cons, this, if_true]
          rw [bindAllScrobblers_cons, hs]
          exact ih (bindScrobbler a bound)
      | error e =>
          have : a.getSession.isOk = false := by simp [hs, Except.isOk, Except.toBool]
          rw [bindAllScrobblers_cons]
          simp only [List.filter_cons, this, Bool.false_eq_true, if_false, hs]
          exact ih bound

theorem mem_bindAllScrobblers_mono (t : Scrobbler) (registered : List Scrobbler) :
    ∀ bound : List Scrobbler, isScrobblerInArray t bound = true →
      isScrobblerInArray t (bindAllScrobblers registered bound) = true := by
  induction registered with
  | nil => intro bound h; exact h
  | cons a l ih =>
      intro bound h
      rw [bindAllScrobblers_cons]
      cases hs : a.getSession with
      | ok v => exact ih (bindScrobbler a bound) (mem_bindScrobbler_mono a t bound h)
      | error e => exact ih bound h

/-- Every registered scrobbler whose getSession resolves ends up in the
bound list produced by bindAllScrobblers. -/
theorem mem_bindAllScrobblers_of_ok (registered : List Scrobbler) :
    ∀ bound : List Scrobbler, ∀ s ∈ registered, s.getSession.isOk = true →
      isScrobblerInArray s (bindAllScrobblers registered bound) = true := by
  induction registered with
  | nil => intro _ s hs; cases hs
  | cons a l ih =>
      intro bound s hs hok
      rw [bindAllScrobblers_cons]
      rcases List.mem_cons.mp hs with rfl | hsl
      · cases hv : s.getSession with
        | ok v =>
            exact mem_bindAllScrobblers_mono s l (bindScrobbler s bound)
              (mem_bindScrobbler_self s bound)
        | error e => simp [hv, Except.isOk, Except.toBool] at hok
      · cases hv : a.getSession with
        | ok v => exact ih (bindScrobbler a bound) s hsl hok
        | error e => exact ih bound s hsl hok

/-- The forwarded-result component of processErrorResult does not depend
on the bound list. -/
theorem processErrorResult_fst_indep (s : Scrobbler) (r : ApiCallResult)
    (b1 b2 : List Scrobbler) :
    (processErrorResult s r b1).1 = (processErrorResult s r b2).1 := by
  by_cases h : (!(r.is ApiCallResultType.errorOther || r.is ApiCallResultType.errorAuth)) = true
  · simp [processErrorResult, h]
  · rw [Bool.not_eq_true] at h
    simp [processErrorResult, h]

/-- The per-slot settlement produced by the toggleLove fan-out, as a
function of the scrobbler alone. -/
def toggleLoveSlot (songInfo : SongInfo) (loveStatus : LoveStatus)
    (bound : List Scrobbler) (s : Scrobbler) : Except JsError ApiCallResult :=
  match s.toggleLove songInfo loveStatus with
  | Except.ok r => Except.ok r
  | Except.error r => (processErrorResult s r bound).1

theorem toggleLoveSlot_indep (songInfo : SongInfo) (loveStatus : LoveStatus)
    (b1 b2 : List Scrobbler) (s : Scrobbler) :
    toggleLoveSlot songInfo loveStatus b1 s = toggleLoveSlot songInfo loveStatus b2 s := by
  unfold toggleLoveSlot
  cases s.toggleLove songInfo loveStatus with
  | ok r => rfl
  | error r => exact processErrorResult_fst_indep s r b1 b2

/-- The entries accumulated by the toggleLove fold are exactly the
per-slot settlements of the dispatched scrobblers. -/
theorem toggleLove_fold_entries (songInfo : SongInfo) (loveStatus : LoveStatus) :
    ∀ (l : List Scrobbler) (acc : List (Except JsError ApiCallResult))
      (b : List Scrobbler),
      (l.foldl (toggleLoveStep songInfo loveStatus) (acc, b)).1
        = acc ++ l.map (toggleLoveSlot songInfo loveStatus b) := by
  intro l
  induction l with
  | nil => intro acc b; simp
  | cons s l ih =>
      intro acc b
      rw [List.foldl_cons]
      cases hb : s.toggleLove songInfo loveStatus with
      | ok r =>
          have hstep : toggleLoveStep songInfo loveStatus (acc, b) s
              = (acc ++ [Except.ok r], b) := by
            simp [toggleLoveStep, hb]
          rw [hstep, ih]
          simp [toggleLoveSlot, hb]
      | error r =>
          have hstep : toggleLoveStep songInfo loveStatus (acc, b) s
              = (acc ++ [(processErrorResult s r b).1], (processErrorResult s r b).2) := by
            simp [toggleLoveStep, hb]
          rw [hstep, ih]
          have hmap : l.map (toggleLoveSlot songInfo loveStatus (processErrorResult s r b).2)
              = l.map (toggleLoveSlot songInfo loveStatus b) :=
            List.map_congr_left fun u _ =>
              toggleLoveSlot_indep songInfo loveStatus _ b u
          rw [hmap]
          simp [toggleLoveSlot, hb]

theorem toggleLove_fst (registered bound : List Scrobbler)
    (songInfo : SongInfo) (loveStatus : LoveStatus) :
    (toggleLove registered bound songInfo loveStatus).1
      = promiseAll ((registered.filter (fun s => s.canLoveSong)).map
          (toggleLoveSlot songInfo loveStatus bound)) := by
  show promiseAll ((registered.filter (fun scrobbler => scrobbler.canLoveSong)).foldl
      (toggleLoveStep songInfo loveStatus) ([], bound)).1 = _
  rw [toggleLove_fold_entries songInfo loveStatus _ [] bound]
  rfl

end ScrobbleManager

/-- Forall₂ between a list and its image under a map. -/
theorem forall₂_self_map {α β : Type} (f : α → β) (l : List α) :
    List.Forall₂ (fun a b => b = f a) l (l.map f) := by
  induction l with
  | nil => exact List.Forall₂.nil
  | cons a l ih => exact List.Forall₂.cons rfl ih

/-- The number of displays over any run of showAuthNotification calls is
bounded by the remaining allowance of the starting counter. -/
theorem showAuthNotificationTimes_le (n : Nat) :
    ∀ stored : Option Nat,
      Extension.showAuthNotificationTimes stored n
          + min (stored.getD 0) Extension.authNotificationDisplayCount
        ≤ Extension.authNotificationDisplayCount := by
  induction n with
  | zero =>
      intro stored
      simp [Extension.showAuthNotificationTimes, Nat.min_le_right]
  | succ n ih =>
      intro stored
      have hunfold : Extension.showAuthNotificationTimes stored (n + 1)
          = (if (Extension.showAuthNotification stored).2 then 1 else 0)
            + Extension.showAuthNotificationTimes
                (Extension.showAuthNotification stored).1 n := rfl
      by_cases h : Extension.isAuthNotificationAllowed stored = true
      · have hc : stored.getD 0 < 3 := by
          simpa [Extension.isAuthNotificationAllowed,
            Extension.authNotificationDisplayCount] using h
        have hshow : Extension.showAuthNotification stored
            = (some (stored.getD 0 + 1), true) := by
          simp [Extension.showAuthNotification, h, Extension.updateAuthDisplayCount]
        have hrec := ih (some (stored.getD 0 + 1))
        rw [hunfold, hshow]
        simp [Extension.authNotificationDisplayCount] at hrec ⊢
        omega
      · rw [Bool.not_eq_true] at h
        have hshow : Extension.showAuthNotification stored = (stored, false) := by
          simp [Extension.showAuthNotification, h]
        have hrec := ih stored
        rw [hunfold, hshow]
        simp [Extension.authNotificationDisplayCount] at hrec ⊢
        omega

/-! The claims. -/

/-- C1: the claim states that every dispatch of sendNowPlaying or scrobble
(including sendScrobbleRequest) catches each failing scrobbler
individually and yields one classified entry per participating scrobbler,
never rejecting the whole aggregate.  This holds for sendNowPlaying, whose
handler is attached with .catch, but fails for scrobble and
sendScrobbleRequest: the slot body returns the scrobble promise from
inside try without awaiting it, so a classified rejection escapes the
catch block and rejects the whole Promise.all.  Evaluated here at one
bound scrobbler whose scrobble call rejects with a classified OtherError:
the scrobble aggregate rejects with the raw result and produces no
entries, while the parallel sendNowPlaying dispatch of the very same
failing scrobbler resolves with the one classified entry the claim
demands. -/
theorem C1_scrobble_rejection_escapes_catch :
    ScrobbleManager.scrobble sampleSong [failingOther]
      = (Except.error (JsError.rejectedWith (otherError "lastfm")), [failingOther]) ∧
    ScrobbleManager.sendNowPlaying sampleSong [failingOther]
      = (Except.ok [otherError "lastfm"], [failingOther]) :=
  ⟨rfl, rfl⟩

/-- C2: for every error result processed by processErrorResult carrying an
AuthError, a scrobbler that is ready for grant access is left bound (the
bound list is unchanged), a scrobbler that is not ready is removed from
the bound set, and in both cases the classified result is returned to the
caller rather than thrown.  The removal statement assumes the program
invariant that ids determine object references within the bound list and
that the id occurs at most once, which holds for every reachable bound
list (bound lists only ever hold the distinct registered instances). -/
theorem C2_processErrorResult_auth_unbind_policy
    (s : Scrobbler) (r : ApiCallResult) (bound : List Scrobbler)
    (hauth : r.is ApiCallResultType.errorAuth = true)
    (hA : ∀ t ∈ bound, (t.id = s.id ↔ t.ref = s.ref))
    (hu : (bound.filter (fun t => t.id == s.id)).length ≤ 1) :
    (s.isReadyForGrantAccess = true →
        ScrobbleManager.processErrorResult s r bound = (Except.ok r, bound)) ∧
    (s.isReadyForGrantAccess = false →
        (ScrobbleManager.processErrorResult s r bound).1 = Except.ok r ∧
        isScrobblerInArray s (ScrobbleManager.processErrorResult s r bound).2 = false) := by
  have hr : r.resultType = ApiCallResultType.errorAuth := by
    simpa [ApiCallResult.is] using hauth
  constructor
  · intro hready
    simp [ScrobbleManager.processErrorResult, ApiCallResult.is, hr, hready]
  · intro hready
    have h2 : ScrobbleManager.processErrorResult s r bound
        = (Except.ok r, ScrobbleManager.unbindScrobbler s bound) := by
      simp [ScrobbleManager.processErrorResult, ApiCallResult.is, hr, hready]
    rw [h2]
    exact ⟨rfl, ScrobbleManager.not_mem_unbindScrobbler s bound hA hu⟩

/-- Witness for C2 at a concrete not-ready scrobbler bound alone: the
classified result is forwarded and the scrobbler leaves the bound set. -/
theorem C2_witness :
    (authError "listenbrainz").is ApiCallResultType.errorAuth = true ∧
    notReadyScrobbler.isReadyForGrantAccess = false ∧
    (ScrobbleManager.processErrorResult notReadyScrobbler (authError "listenbrainz")
        [notReadyScrobbler]).1 = Except.ok (authError "listenbrainz") ∧
    isScrobblerInArray notReadyScrobbler
        (ScrobbleManager.processErrorResult notReadyScrobbler (authError "listenbrainz")
          [notReadyScrobbler]).2 = false := by
  have h := C2_processErrorResult_auth_unbind_policy notReadyScrobbler
    (authError "listenbrainz") [notReadyScrobbler] rfl
    (by intro t ht; rw [List.mem_singleton] at ht; subst ht; exact Iff.intro (fun _ => rfl) (fun _ => rfl))
    (by decide)
  exact ⟨rfl, rfl, (h.2 rfl).1, (h.2 rfl).2⟩

/-- C3: for every result that is neither of the two classified kinds,
processErrorResult raises the Invalid result error instead of returning a
result, and the bound list is left unchanged. -/
theorem C3_processErrorResult_invalid_result_fails_loud
    (s : Scrobbler) (r : ApiCallResult) (bound : List Scrobbler)
    (hother : r.is ApiCallResultType.errorOther = false)
    (hauth : r.is ApiCallResultType.errorAuth = false) :
    ScrobbleManager.processErrorResult s r bound
      = (Except.error JsError.invalidResult, bound) := by
  simp [ScrobbleManager.processErrorResult, hother, hauth]

/-- Witness for C3 at a success-kind result. -/
theorem C3_witness :
    (okResult "lastfm").is ApiCallResultType.errorOther = false ∧
    (okResult "lastfm").is ApiCallResultType.errorAuth = false ∧
    ScrobbleManager.processErrorResult lastfmA (okResult "lastfm") [lastfmA]
      = (Except.error JsError.invalidResult, [lastfmA]) :=
  ⟨rfl, rfl,
   C3_processErrorResult_invalid_result_fails_loud lastfmA (okResult "lastfm") [lastfmA] rfl rfl⟩

/-- C4 counterexample: the claim quantifies over every scrobbler and every
bound-set state and asserts the toggles are keyed by scrobbler ID, not
object reference.  With a second object lastfmB sharing the id lastfm with
the bound object lastfmA, the bind-unbind-rebind round trip of lastfmB on
the bound list with entries lastfmA and librefmC silently removes
librefmC: unbindScrobbler finds the id bound, but indexOf compares object
references, yields -1, and splice(-1, 1) removes the last element.  The
resulting membership state differs from a single bind, refuting the claim
as stated. -/
theorem C4_counterexample_alias_roundTrip :
    isScrobblerInArray librefmC
        (ScrobbleManager.bindScrobbler lastfmB
          (ScrobbleManager.unbindScrobbler lastfmB
            (ScrobbleManager.bindScrobbler lastfmB [lastfmA, librefmC]))) = false ∧
    isScrobblerInArray librefmC
        (ScrobbleManager.bindScrobbler lastfmB [lastfmA, librefmC]) = true :=
  ⟨rfl, rfl⟩

/-- C4 amended: provided every scrobbler in the bound list that shares the
id of s is the same object reference as s (true for every reachable bound
list, whose entries are the distinct registered instances), bindScrobbler
is idempotent, unbindScrobbler on a non-member leaves the list unchanged
(and never throws, being total), and the bind-unbind-rebind round trip
yields the same id-membership state as a single bind. -/
theorem C4_amended_bind_unbind_laws
    (s : Scrobbler) (bound : List Scrobbler)
    (hA : ∀ t ∈ bound, (t.id = s.id ↔ t.ref = s.ref)) :
    ScrobbleManager.bindScrobbler s (ScrobbleManager.bindScrobbler s bound)
      = ScrobbleManager.bindScrobbler s bound ∧
    (isScrobblerInArray s bound = false →
        ScrobbleManager.unbindScrobbler s bound = bound) ∧
    (∀ t, isScrobblerInArray t
          (ScrobbleManager.bindScrobbler s
            (ScrobbleManager.unbindScrobbler s (ScrobbleManager.bindScrobbler s bound)))
        = isScrobblerInArray t (ScrobbleManager.bindScrobbler s bound)) :=
  ⟨ScrobbleManager.bindScrobbler_idem s bound,
   fun h => ScrobbleManager.unbindScrobbler_of_not_mem s bound h,
   ScrobbleManager.roundTrip_bindScrobbler s bound hA⟩

/-- Witness for C4 at a concrete non-aliased state. -/
theorem C4_witness :
    ScrobbleManager.bindScrobbler lastfmA (ScrobbleManager.bindScrobbler lastfmA [librefmC])
      = ScrobbleManager.bindScrobbler lastfmA [librefmC] ∧
    ScrobbleManager.unbindScrobbler lastfmA [librefmC] = [librefmC] ∧
    isScrobblerInArray librefmC
        (ScrobbleManager.bindScrobbler lastfmA
          (ScrobbleManager.unbindScrobbler lastfmA
            (ScrobbleManager.bindScrobbler lastfmA [librefmC])))
      = isScrobblerInArray librefmC (ScrobbleManager.bindScrobbler lastfmA [librefmC]) := by
  have h := C4_amended_bind_unbind_laws lastfmA [librefmC]
    (by intro t ht; rw [List.mem_singleton] at ht; subst ht; decide)
  exact ⟨h.1, h.2.1 rfl, h.2.2 librefmC⟩

/-- C5: bindAllScrobblers attempts getSession on every registered
scrobbler, a getSession failure of one scrobbler does not prevent or
change the treatment of the others (dropping the failing scrobblers from
the loop leaves the result unchanged), every scrobbler whose getSession
succeeds is in the returned bound list, and the function returns the
resulting bound list. -/
theorem C5_bindAllScrobblers_failure_independent
    (registered bound : List Scrobbler) :
    ScrobbleManager.bindAllScrobblers registered bound
      = ScrobbleManager.bindAllScrobblers
          (registered.filter (fun s => s.getSession.isOk)) bound ∧
    (∀ s ∈ registered, s.getSession.isOk = true →
        isScrobblerInArray s (ScrobbleManager.bindAllScrobblers registered bound) = true) :=
  ⟨ScrobbleManager.bindAllScrobblers_filter_ok registered bound,
   fun s hs hok => ScrobbleManager.mem_bindAllScrobblers_of_ok registered bound s hs hok⟩

/-- Witness for C5: with one succeeding and one failing scrobbler, the
succeeding one is bound. -/
theorem C5_witness :
    lastfmA.getSession.isOk = true ∧
    failingSession.getSession.isOk = false ∧
    isScrobblerInArray lastfmA
        (ScrobbleManager.bindAllScrobblers [lastfmA, failingSession] []) = true :=
  ⟨rfl, rfl,
   (C5_bindAllScrobblers_failure_independent [lastfmA, failingSession] []).2
     lastfmA (List.mem_cons_self _ _) rfl⟩

/-- C6: the duration parser maps 01:10:30 (with or without trailing
whitespace) to 4230, -01:10 to -70, 05:20 to 320, 20 to 20, and the empty
string and null to 0. -/
theorem C6_stringToSeconds_parsing_law :
    Util.stringToSeconds (some "01:10:30 ".data) = 4230 ∧
    Util.stringToSeconds (some "01:10:30".data) = 4230 ∧
    Util.stringToSeconds (some "-01:10".data) = -70 ∧
    Util.stringToSeconds (some "05:20".data) = 320 ∧
    Util.stringToSeconds (some "20".data) = 20 ∧
    Util.stringToSeconds (some "".data) = 0 ∧
    Util.stringToSeconds none = 0 := by
  decide

/-- C7: getSongInfo dispatches exactly to the registered scrobblers whose
canLoadSongInfo is true, one slot per capable scrobbler; a failing call
yields a null slot and the aggregate never rejects (it is total). -/
theorem C7_getSongInfo_null_degradation
    (registered : List Scrobbler) (songInfo : SongInfo) :
    (ScrobbleManager.getSongInfo registered songInfo).length
      = (registered.filter (fun s => s.canLoadSongInfo)).length ∧
    List.Forall₂ (fun (s : Scrobbler) (slot : Option ScrobblerSongInfo) =>
        slot = (s.getSongInfo songInfo).toOption)
      (registered.filter (fun s => s.canLoadSongInfo))
      (ScrobbleManager.getSongInfo registered songInfo) := by
  constructor
  · simp [ScrobbleManager.getSongInfo]
  · exact forall₂_self_map _ _

/-- C8: toggleLove dispatches exactly to the registered scrobblers whose
canLoveSong is true, with one slot per such scrobbler determined by that
scrobbler alone, and the aggregate outcome is unaffected by the contents
of the bound list. -/
theorem C8_toggleLove_dispatch_targets
    (registered b1 b2 : List Scrobbler) (songInfo : SongInfo) (loveStatus : LoveStatus) :
    (ScrobbleManager.toggleLove registered b1 songInfo loveStatus).1
      = (ScrobbleManager.toggleLove registered b2 songInfo loveStatus).1 ∧
    (ScrobbleManager.toggleLove registered b1 songInfo loveStatus).1
      = promiseAll ((registered.filter (fun s => s.canLoveSong)).map
          (ScrobbleManager.toggleLoveSlot songInfo loveStatus b1)) := by
  refine ⟨?_, ScrobbleManager.toggleLove_fst registered b1 songInfo loveStatus⟩
  rw [ScrobbleManager.toggleLove_fst registered b1 songInfo loveStatus,
    ScrobbleManager.toggleLove_fst registered b2 songInfo loveStatus]
  exact congrArg promiseAll (List.map_congr_left fun s _ =>
    ScrobbleManager.toggleLoveSlot_indep songInfo loveStatus b1 b2 s)

/-- C9: a string that is not the id of any registered scrobbler makes
getScrobblerById return null; scrobbleWithScrobblers maps ids through
getScrobblerById with no up-front validation, so the null entry flows into
sendScrobbleRequest, whose slot for a null entry is the TypeError of
dispatching to it, not an unknown-scrobbler-ID rejection of the
sub-request. -/
theorem C9_unknown_scrobbler_id_dispatched_as_null
    (registered bound : List Scrobbler) (songInfo : SongInfo)
    (scrobblerIds : List String) (badId : String)
    (hunknown : ∀ s ∈ registered, s.id ≠ badId)
    (hmem : badId ∈ scrobblerIds) :
    ScrobbleManager.getScrobblerById registered badId = none ∧
    none ∈ scrobblerIds.map (ScrobbleManager.getScrobblerById registered) ∧
    ScrobbleManager.scrobbleWithScrobblers registered songInfo scrobblerIds bound
      = (promiseAll ((scrobblerIds.map (ScrobbleManager.getScrobblerById registered)).map
            (ScrobbleManager.sendScrobbleRequestSlot songInfo)), bound) ∧
    ScrobbleManager.sendScrobbleRequestSlot songInfo none = Except.error JsError.typeError := by
  have h1 : ScrobbleManager.getScrobblerById registered badId = none := by
    rw [ScrobbleManager.getScrobblerById, List.find?_eq_none]
    intro s hs
    simpa using hunknown s hs
  exact ⟨h1, List.mem_map.mpr ⟨badId, hmem, h1⟩, rfl, rfl⟩

/-- Witness for C9 at a concrete unknown id. -/
theorem C9_witness :
    ScrobbleManager.getScrobblerById [lastfmA, librefmC] "unknown" = none ∧
    ScrobbleManager.sendScrobbleRequestSlot sampleSong none
      = Except.error JsError.typeError := by
  have h := C9_unknown_scrobbler_id_dispatched_as_null [lastfmA, librefmC] [] sampleSong
    ["unknown"] "unknown"
    (by
      intro s hs
      rcases List.mem_cons.mp hs with rfl | hs2
      · decide
      · rw [List.mem_singleton] at hs2; subst hs2; decide)
    (List.mem_singleton.mpr rfl)
  exact ⟨h.1, h.2.2.2⟩

/-- C10: the auth notification is allowed exactly while the stored display
count (0 when absent) is below 3, every display writes back the count plus
one, a count at or above 3 means the notification is not shown, and over
any number of attempts starting from an absent counter at most 3
notifications are ever displayed. -/
theorem C10_auth_notification_limit :
    (∀ stored : Option Nat,
        Extension.isAuthNotificationAllowed stored = true ↔ stored.getD 0 < 3) ∧
    (∀ stored : Option Nat, Extension.isAuthNotificationAllowed stored = true →
        Extension.showAuthNotification stored = (some (stored.getD 0 + 1), true)) ∧
    (∀ stored : Option Nat, 3 ≤ stored.getD 0 →
        Extension.showAuthNotification stored = (stored, false)) ∧
    (∀ n : Nat, Extension.showAuthNotificationTimes none n ≤ 3) := by
  refine ⟨?_, ?_, ?_, ?_⟩
  · intro stored
    simp [Extension.isAuthNotificationAllowed, Extension.authNotificationDisplayCount]
  · intro stored h
    simp [Extension.showAuthNotification, h, Extension.updateAuthDisplayCount]
  · intro stored h
    have hno : Extension.isAuthNotificationAllowed stored = false := by
      simp only [Extension.isAuthNotificationAllowed,
        Extension.authNotificationDisplayCount, decide_eq_false_iff_not]
      omega
    simp [Extension.showAuthNotification, hno]
  · intro n
    have h := showAuthNotificationTimes_le n none
    simpa [Extension.authNotificationDisplayCount] using h

/-- Witness for C10 at concrete counters. -/
theorem C10_witness :
    Extension.isAuthNotificationAllowed (some 2) = true ∧
    Extension.showAuthNotification (some 2) = (some 3, true) ∧
    Extension.showAuthNotification (some 3) = (some 3, false) ∧
    Extension.showAuthNotificationTimes none 5 ≤ 3 := by
  have h := C10_auth_notification_limit
  have h1 : Extension.isAuthNotificationAllowed (some 2) = true :=
    (h.1 (some 2)).mpr (by decide)
  exact ⟨h1, h.2.1 (some 2) h1, h.2.2.1 (some 3) (by decide), h.2.2.2 5⟩

end WebScrobbler

